import Mathlib

/-!
Verification development for the classroom seat-relocation engine
(models.js / utils.js / main.js / drag-drop.js).

Shallow embedding conventions:
* JS objects become Lean structures; arrays become lists; mutation becomes
  explicit state passing.
* A seat identifier is the string "{row}-{col}" in the source.  Decimal
  rendering of the two numbers makes the map (row, col) to that string
  injective, so the pair itself is used as the identity here.
* uuids are opaque nonempty strings in the source (so they are always
  truthy); they are modelled as naturals.
* Rendering, localStorage, alert/confirm dialogs and console logging are
  I/O and are dropped; data fields that no modelled operation reads
  (student id / gender / height / notes, the redundant seat field
  "position") are omitted from the structures.
* Array.prototype.find / findIndex return the first match; the embedding
  mirrors that with first-match lookup and first-match update.
* Array.prototype.sort is stable (ES2019); it is embedded as a stable
  structural insertion sort on the same comparator.
-/

abbrev Uuid := Nat

/-- Seat identity: the (row, col) pair that the source renders as the
string "{row}-{col}". -/
abbrev SeatId := Nat × Nat

/-- Student record (models.js, class Student); only the fields the
modelled operations read are kept.  seatId is the denormalised cache. -/
structure Student where
  uuid : Uuid
  name : String
  seatId : Option SeatId
deriving DecidableEq, Repr

/-- Seat record (models.js, class Seat). -/
structure Seat where
  id : SeatId
  row : Nat
  col : Nat
  student : Option Student
  isDeleted : Bool
deriving DecidableEq, Repr

/-- History entry pushed by SeatingData.addToHistory; data is the
deep-cloned seat collection (deep clone of a value is the value). -/
structure HistoryEntry where
  action : String
  data : List Seat
  timestamp : Nat
deriving DecidableEq, Repr

/-- The SeatingData singleton (models.js); UI-only fields
(showCoordinates, fonts, colors, constraints) are omitted. -/
structure SeatingData where
  students : List Student
  seats : List Seat
  rows : Nat
  cols : Nat
  history : List HistoryEntry
  historyIndex : Int
deriving DecidableEq, Repr

/-- models.js MAX_HISTORY_SIZE. -/
def MAX_HISTORY_SIZE : Nat := 5

/-- utils.js toDisplayCoord: displayRow = totalRows - internalRow,
displayCol = internalCol + 1. -/
def toDisplayCoord (internalRow internalCol totalRows : Int) : Int × Int :=
  (totalRows - internalRow, internalCol + 1)

/-- utils.js toInternalCoord: internalRow = totalRows - displayRow,
internalCol = displayCol - 1. -/
def toInternalCoord (displayRow displayCol totalRows : Int) : Int × Int :=
  (totalRows - displayRow, displayCol - 1)

/-- models.js SeatingData.findStudentByUuid: first student with the uuid. -/
def SeatingData.findStudentByUuid (d : SeatingData) (uuid : Uuid) : Option Student :=
  d.students.find? (fun s => s.uuid == uuid)

/-- models.js SeatingData.findSeatById: first seat with the id. -/
def SeatingData.findSeatById (d : SeatingData) (seatId : SeatId) : Option Seat :=
  d.seats.find? (fun s => s.id == seatId)

/-- models.js SeatingData.getActiveSeats. -/
def SeatingData.getActiveSeats (d : SeatingData) : List Seat :=
  d.seats.filter (fun s => !s.isDeleted)

/-- models.js initializeSeats builds the dictionary existingSeatData
keyed by seat id; a later entry overwrites an earlier one, so the last
occurrence wins. -/
def existingSeatData (seats : List Seat) (sid : SeatId) : Option (Option Student × Bool) :=
  (seats.reverse.find? (fun s => s.id == sid)).map (fun s => (s.student, s.isDeleted))

/-- models.js SeatingData.initializeSeats: rebuilds the dense rows x cols
grid in row-major order, carrying over student and isDeleted for every
id that already existed. -/
def SeatingData.initializeSeats (d : SeatingData) : SeatingData :=
  { d with seats :=
      (List.range d.rows).flatMap (fun row =>
        (List.range d.cols).map (fun col =>
          match existingSeatData d.seats (row, col) with
          | some (st, del) =>
              { id := (row, col), row := row, col := col, student := st, isDeleted := del }
          | none =>
              { id := (row, col), row := row, col := col, student := none, isDeleted := false })) }

/-- models.js SeatingData.addToHistory: truncate redo entries, push the
deep-cloned snapshot, evict the oldest entries past MAX_HISTORY_SIZE and
clamp the index to the top, otherwise advance the index. -/
def SeatingData.addToHistory (d : SeatingData) (action : String) (snapshot : List Seat)
    (timestamp : Nat) : SeatingData :=
  let hist := d.history.take (d.historyIndex + 1).toNat
  let hist := hist ++ [{ action := action, data := snapshot, timestamp := timestamp }]
  if hist.length > MAX_HISTORY_SIZE then
    let hist := hist.drop (hist.length - MAX_HISTORY_SIZE)
    { d with history := hist, historyIndex := (hist.length : Int) - 1 }
  else
    { d with history := hist, historyIndex := d.historyIndex + 1 }

/-- models.js SeatingData.undo: return the entry at the pointer and
decrement it, or none when the pointer is below the first entry. -/
def SeatingData.undo (d : SeatingData) : Option HistoryEntry × SeatingData :=
  if 0 ≤ d.historyIndex then
    (d.history.get? d.historyIndex.toNat, { d with historyIndex := d.historyIndex - 1 })
  else
    (none, d)

/-- models.js SeatingData.redo. -/
def SeatingData.redo (d : SeatingData) : Option HistoryEntry × SeatingData :=
  if d.historyIndex < (d.history.length : Int) - 1 then
    ({ d with historyIndex := d.historyIndex + 1 }.history.get? (d.historyIndex + 1).toNat,
     { d with historyIndex := d.historyIndex + 1 })
  else
    (none, d)

/-- models.js SeatingData.relinkStudentReferences: replace each seat
occupant by the roster student with the same uuid; when the roster has
none, only a console warning is emitted and the seat is left unchanged. -/
def SeatingData.relinkStudentReferences (d : SeatingData) : SeatingData :=
  { d with seats := d.seats.map (fun seat =>
      match seat.student with
      | some st =>
          match d.students.find? (fun s => s.uuid == st.uuid) with
          | some canonical => { seat with student := some canonical }
          | none => seat
      | none => seat) }

/-- main.js syncStudentSeatIds computes, for one uuid, the seat id the
forEach loop leaves in the cache: the last seat holding that uuid (every
cache is first reset to null). -/
def cacheFor (seats : List Seat) (uid : Uuid) : Option SeatId :=
  seats.foldl (fun acc s =>
    match s.student with
    | some st => if st.uuid == uid then some s.id else acc
    | none => acc) none

/-- main.js SeatingApp.syncStudentSeatIds: recompute every roster
student's seatId cache from the seat collection.  The source writes
through the seat.student references, which relinking keeps identical to
the roster objects; the embedding updates the roster by uuid. -/
def syncStudentSeatIds (d : SeatingData) : SeatingData :=
  { d with students := d.students.map (fun u => { u with seatId := cacheFor d.seats u.uuid }) }

/-- First-match update, the effect of mutating the object returned by
Array.prototype.find. -/
def updateFirst (p : Seat → Bool) (f : Seat → Seat) : List Seat → List Seat
  | [] => []
  | s :: rest => if p s then f s :: rest else s :: updateFirst p f rest

/-- Positional update at an index (mutation through a reference captured
before other first-match positions may have changed). -/
def modifyAt (i : Nat) (f : Seat → Seat) : List Seat → List Seat
  | [] => []
  | s :: rest =>
      match i with
      | 0 => f s :: rest
      | i + 1 => s :: modifyAt i f rest

/-- Index of the first match (Array.prototype.find, position of the
returned object). -/
def firstIdx? (p : Seat → Bool) : List Seat → Option Nat
  | [] => none
  | s :: rest => if p s then some 0 else (firstIdx? p rest).map (· + 1)

/-- The predicate of the currentSeat lookup in assignStudentToSeat:
the seat holds a student with the given uuid. -/
def occupiedBy (u : Uuid) (s : Seat) : Bool :=
  match s.student with
  | some st => st.uuid == u
  | none => false

/-- main.js SeatingApp.assignStudentToSeat.  The unused third JS
parameter sourceSeatId is dropped.  Returns the state unchanged when the
student or the target seat is missing, the target is deleted, or the
student already sits in the target; otherwise records history, puts the
student on the target and leaves the displaced occupant (possibly null)
on the student's previous seat, then resyncs the caches. -/
def assignStudentToSeat (d : SeatingData) (studentUuid : Uuid) (seatId : SeatId)
    (timestamp : Nat) : SeatingData :=
  match d.findStudentByUuid studentUuid, d.findSeatById seatId with
  | some student, some targetSeat =>
    if targetSeat.isDeleted then d
    else
      let currentIdx? := firstIdx? (occupiedBy studentUuid) d.seats
      let currentSeat? := currentIdx?.bind (fun i => d.seats.get? i)
      match currentSeat? with
      | some c =>
        if c.id == seatId then d
        else
          let d₁ := d.addToHistory "seatArrangement" d.seats timestamp
          let displaced := targetSeat.student
          let seats₁ := updateFirst (fun s => s.id == seatId)
            (fun s => { s with student := some student }) d₁.seats
          let seats₂ :=
            match currentIdx? with
            | some i => modifyAt i (fun s => { s with student := displaced }) seats₁
            | none => seats₁
          syncStudentSeatIds { d₁ with seats := seats₂ }
      | none =>
          let d₁ := d.addToHistory "seatArrangement" d.seats timestamp
          let seats₁ := updateFirst (fun s => s.id == seatId)
            (fun s => { s with student := some student }) d₁.seats
          syncStudentSeatIds { d₁ with seats := seats₁ }
  | _, _ => d

/-- main.js SeatingApp.removeStudentFromSeat. -/
def removeStudentFromSeat (d : SeatingData) (seatId : SeatId) (timestamp : Nat) : SeatingData :=
  match d.findSeatById seatId with
  | some seat =>
      match seat.student with
      | some _ =>
          let d₁ := d.addToHistory "seatArrangement" d.seats timestamp
          let seats₁ := updateFirst (fun s => s.id == seatId)
            (fun s => { s with student := none }) d₁.seats
          syncStudentSeatIds { d₁ with seats := seats₁ }
      | none => d
  | none => d

/-- main.js SeatingApp.deleteSeat: refuses when occupied (alert), else
records history and marks the seat deleted. -/
def deleteSeat (d : SeatingData) (seatId : SeatId) (timestamp : Nat) : SeatingData :=
  match d.findSeatById seatId with
  | some seat =>
      match seat.student with
      | some _ => d
      | none =>
          let d₁ := d.addToHistory "seatArrangement" d.seats timestamp
          let seats₁ := updateFirst (fun s => s.id == seatId)
            (fun s => { s with isDeleted := true }) d₁.seats
          { d₁ with seats := seats₁ }
  | none => d

/-- main.js SeatingApp.toggleSeatSelection on the selection set (JS Set,
insertion ordered, modelled as a duplicate-free list). -/
def toggleSeatSelection (sel : List SeatId) (seatId : SeatId) (clearOthers : Bool) :
    List SeatId :=
  let sel₁ := if clearOthers && !sel.contains seatId then [] else sel
  if sel₁.contains seatId then sel₁.erase seatId else sel₁ ++ [seatId]

/-- main.js saveStudent, add-new branch: push the student to the roster. -/
def saveNewStudent (d : SeatingData) (student : Student) : SeatingData :=
  { d with students := d.students ++ [student] }

/-- main.js saveStudent, edit branch: overwrite the roster entry with a
matching uuid (kept for completeness). -/
def saveEditedStudent (d : SeatingData) (student : Student) : SeatingData :=
  { d with students := d.students.map (fun s => if s.uuid == student.uuid then student else s) }

/-- main.js restoreFromHistory: adopt the snapshot seats and relink the
occupant references to the canonical roster objects. -/
def restoreFromHistory (d : SeatingData) (item : HistoryEntry) : SeatingData :=
  if item.action == "seatArrangement" then
    SeatingData.relinkStudentReferences { d with seats := item.data }
  else d

/-- One entry of checkMultiDropTarget's positions array. -/
structure DropPosition where
  originalSeatId : SeatId
  targetSeatId : SeatId
  student : Option Student
deriving DecidableEq, Repr

/-- checkMultiDropTarget's return object. -/
structure DropResult where
  positions : List DropPosition
  displacedStudents : List Student
deriving DecidableEq, Repr

/-- The for-of loop of main.js checkMultiDropTarget: per selected seat,
skip missing sources (continue), reject on out-of-bounds or
missing/deleted translated targets (return null), else record the
position and any displaced occupant of an unselected target. -/
def checkMultiDropLoop (d : SeatingData) (rowOffset colOffset : Int)
    (selectedSeatIds : List SeatId) : List SeatId → Option (List DropPosition × List Student)
  | [] => some ([], [])
  | sid :: rest =>
    match d.findSeatById sid with
    | none => checkMultiDropLoop d rowOffset colOffset selectedSeatIds rest
    | some sourceSeat =>
      let newRow : Int := (sourceSeat.row : Int) + rowOffset
      let newCol : Int := (sourceSeat.col : Int) + colOffset
      if newRow < 0 ∨ (d.rows : Int) ≤ newRow ∨ newCol < 0 ∨ (d.cols : Int) ≤ newCol then
        none
      else
        match d.seats.find? (fun s => ((s.row : Int) == newRow) && ((s.col : Int) == newCol)) with
        | none => none
        | some t =>
          if t.isDeleted then none
          else
            match checkMultiDropLoop d rowOffset colOffset selectedSeatIds rest with
            | none => none
            | some (ps, ds) =>
              let ds₁ :=
                match t.student with
                | some st => if selectedSeatIds.contains t.id then ds else st :: ds
                | none => ds
              some (⟨sid, t.id, sourceSeat.student⟩ :: ps, ds₁)

/-- main.js SeatingApp.checkMultiDropTarget: reject a missing or deleted
drop target, take the first selected seat as the offset reference, and
run the translation check over every selected seat. -/
def checkMultiDropTarget (d : SeatingData) (targetSeatId : SeatId)
    (selectedSeatIds : List SeatId) : Option DropResult :=
  match d.findSeatById targetSeatId with
  | none => none
  | some targetSeat =>
    if targetSeat.isDeleted then none
    else
      match selectedSeatIds with
      | [] => none
      | firstSelectedId :: _ =>
        match d.findSeatById firstSelectedId with
        | none => none
        | some firstSelectedSeat =>
          let rowOffset : Int := (targetSeat.row : Int) - (firstSelectedSeat.row : Int)
          let colOffset : Int := (targetSeat.col : Int) - (firstSelectedSeat.col : Int)
          match checkMultiDropLoop d rowOffset colOffset selectedSeatIds selectedSeatIds with
          | none => none
          | some (ps, ds) => some ⟨ps, ds⟩

/-- The JS sort comparator (a.row - b.row) || (a.col - b.col): strict
row-major order on keys. -/
def rcLt (a b : Nat × Nat) : Bool :=
  decide (a.1 < b.1 ∨ (a.1 = b.1 ∧ a.2 < b.2))

/-- Stable insertion used to embed Array.prototype.sort (stable per
ES2019): an element moves past another only when strictly greater. -/
def insertByRC {α : Type} (key : α → Nat × Nat) (x : α) : List α → List α
  | [] => [x]
  | y :: ys => if rcLt (key y) (key x) then y :: insertByRC key x ys else x :: y :: ys

/-- Stable sort by row-major key; observationally equal to the source's
stable Array.prototype.sort with the row/col comparator. -/
def sortByRC {α : Type} (key : α → Nat × Nat) : List α → List α
  | [] => []
  | x :: xs => insertByRC key x (sortByRC key xs)

/-- main.js executeMultiDropWithAllSeats step 1: the net-vacated seats,
in ascending row/col order: source seats that are no target of the move,
exist, and are not deleted. -/
def availableSourceSeatsOf (d : SeatingData) (sourceSeatIds targetIds : List SeatId) :
    List Seat :=
  sortByRC (fun s => (s.row, s.col))
    (((sourceSeatIds.filter (fun sid => !targetIds.contains sid)).filterMap
        d.findSeatById).filter (fun s => !s.isDeleted))

/-- Result of executeMultiDropWithAllSeats step 2 (the forEach over the
positions): students to move with their planned targets, displaced
occupants with the seat they sit on, and the seat collection with the
occupied source seats cleared. -/
structure MoveCollect where
  moves : List (Student × SeatId)
  displaced : List (Student × Seat)
  seats : List Seat
deriving Repr

/-- main.js executeMultiDropWithAllSeats step 2: per position, clear an
occupied source seat and queue its occupant for the planned target; an
occupant of a target seat outside the source list (read after the clear,
as the live JS reference does) counts as displaced. -/
def collectMoves (sourceSeatIds : List SeatId) :
    List DropPosition → List Seat → MoveCollect
  | [], seats => ⟨[], [], seats⟩
  | pos :: rest, seats =>
    let src? := seats.find? (fun s => s.id == pos.originalSeatId)
    let step :=
      match src? with
      | some ss =>
        match ss.student with
        | some st =>
            (([(st, pos.targetSeatId)] : List (Student × SeatId)),
             updateFirst (fun s => s.id == pos.originalSeatId)
               (fun s => { s with student := none }) seats)
        | none => (([] : List (Student × SeatId)), seats)
      | none => (([] : List (Student × SeatId)), seats)
    let disp :=
      match step.2.find? (fun s => s.id == pos.targetSeatId) with
      | some t =>
        match t.student with
        | some st =>
            if sourceSeatIds.contains pos.targetSeatId then [] else [(st, t)]
        | none => []
      | none => []
    let r := collectMoves sourceSeatIds rest step.2
    ⟨step.1 ++ r.moves, disp ++ r.displaced, r.seats⟩

/-- main.js executeMultiDropWithAllSeats step 4: write every moved
student onto its planned target seat. -/
def placeMoves (moves : List (Student × SeatId)) (seats : List Seat) : List Seat :=
  moves.foldl (fun seats m =>
    updateFirst (fun s => s.id == m.2) (fun s => { s with student := some m.1 }) seats) seats

/-- main.js executeMultiDropWithAllSeats step 5: pair the displaced
students positionally with the available net-vacated seats; a student
with no seat left only gets its seatId cache nulled (collected here,
applied by clearCaches). -/
def placeDisplaced : List (Student × Seat) → List Seat → List Seat → List Seat × List Uuid
  | [], _, seats => (seats, [])
  | item :: rest, [], seats =>
      let r := placeDisplaced rest [] seats
      (r.1, item.1.uuid :: r.2)
  | item :: rest, v :: vs, seats =>
      placeDisplaced rest vs
        (updateFirst (fun s => s.id == v.id) (fun s => { s with student := some item.1 }) seats)

/-- The seatId-cache nulling of step 5's overflow branch, applied to the
roster (the JS write goes through the canonical student reference). -/
def clearCaches (uuids : List Uuid) (students : List Student) : List Student :=
  students.map (fun u => if uuids.contains u.uuid then { u with seatId := none } else u)

/-- main.js SeatingApp.executeMultiDropWithAllSeats: abort without any
mutation when checkMultiDropTarget rejects, otherwise record history and
run steps 1-5, then resync the caches.  dragData.sourceSeats enters only
through its seatId fields, so the parameter is the id list. -/
def executeMultiDropWithAllSeats (d : SeatingData) (targetSeatId : SeatId)
    (sourceSeatIds : List SeatId) (timestamp : Nat) : SeatingData :=
  match checkMultiDropTarget d targetSeatId sourceSeatIds with
  | none => d
  | some dropResult =>
    let d₁ := d.addToHistory "seatArrangement" d.seats timestamp
    let targetIds := dropResult.positions.map (fun p => p.targetSeatId)
    let avail := availableSourceSeatsOf d₁ sourceSeatIds targetIds
    let mc := collectMoves sourceSeatIds dropResult.positions d₁.seats
    let disp := sortByRC (fun it => (it.2.row, it.2.col)) mc.displaced
    let seats₃ := placeMoves mc.moves mc.seats
    let pd := placeDisplaced disp avail seats₃
    syncStudentSeatIds { d₁ with seats := pd.1, students := clearCaches pd.2 d₁.students }

/-- Filter for the injectivity properties: the non-deleted seats whose
occupant has the given uuid. -/
def seatsHolding (seats : List Seat) (uid : Uuid) : List Seat :=
  seats.filter (fun s =>
    !s.isDeleted && (match s.student with
                     | some st => st.uuid == uid
                     | none => false))

/-! Concrete fixtures shared by witnesses and counterexamples. -/

def demoA : Student := ⟨1, "A", none⟩

def demoB : Student := ⟨2, "B", none⟩

def demoC : Student := ⟨3, "C", none⟩

/-- An empty 2 x 2 session state, built by initializeSeats. -/
def grid2 : SeatingData := SeatingData.initializeSeats ⟨[], [], 2, 2, [], -1⟩

/-- Roster A, B on the 2 x 2 grid. -/
def rosterAB : SeatingData := saveNewStudent (saveNewStudent grid2 demoA) demoB

/-- A at seat (0,0), B at seat (1,1). -/
def dAB : SeatingData :=
  assignStudentToSeat (assignStudentToSeat rosterAB 1 (0, 0) 10) 2 (1, 1) 11

/-- A at seat (0,0), B at seat (0,1). -/
def dABrow : SeatingData :=
  assignStudentToSeat (assignStudentToSeat rosterAB 1 (0, 0) 10) 2 (0, 1) 11

/-- C7: for every valid internal coordinate, converting to display
coordinates and back is the identity. -/
theorem coordinate_roundTrip (row col rows cols : Int)
    (hr0 : 0 ≤ row) (hr : row < rows) (hc0 : 0 ≤ col) (hc : col < cols) :
    toInternalCoord (toDisplayCoord row col rows).1 (toDisplayCoord row col rows).2 rows
      = (row, col) := by
  simp only [toDisplayCoord, toInternalCoord, Prod.mk.injEq]
  omega

/-- Witness for C7 at (row, col) = (1, 2) on a 6 x 8 grid. -/
theorem coordinate_roundTrip_witness :
    (0 ≤ (1 : Int) ∧ (1 : Int) < 6 ∧ 0 ≤ (2 : Int) ∧ (2 : Int) < 8) ∧
      toInternalCoord (toDisplayCoord 1 2 6).1 (toDisplayCoord 1 2 6).2 6 = (1, 2) :=
  ⟨by decide, coordinate_roundTrip 1 2 6 8 (by decide) (by decide) (by decide) (by decide)⟩

/-- C9 counterexample: with selection [(0,0), (0,1)], an exclusive
toggle of the already-selected (0,0) does not clear the other member
first; the result keeps (0,1), so it is neither the singleton of the
toggled id nor empty. -/
theorem toggle_exclusive_claim_cex :
    toggleSeatSelection [(0, 0), (0, 1)] (0, 0) true = [(0, 1)] ∧
      ([((0 : Nat), (1 : Nat))] : List SeatId) ≠ [(0, 0)] ∧
      ([((0 : Nat), (1 : Nat))] : List SeatId) ≠ [] := by
  refine ⟨by decide, by decide, by decide⟩

/-- C9 as amended: an exclusive toggle clears the other members only
when the seat is not yet selected, so it yields the singleton of the
given id in that case and otherwise merely removes the id, keeping the
other members. -/
theorem toggle_exclusive_spec (sel : List SeatId) (seatId : SeatId) :
    toggleSeatSelection sel seatId true =
      if sel.contains seatId then sel.erase seatId else [seatId] := by
  unfold toggleSeatSelection
  cases h : sel.contains seatId with
  | false => simp [h]
  | true =>
    have hmem : seatId ∈ sel := by simpa using h
    simp [h, hmem]

/-- A student uuid with no roster entry in the relink fixtures. -/
def ghostStudent : Student := ⟨7, "G", none⟩

/-- A state whose only seat holds a student copy absent from the roster. -/
def dGhost : SeatingData :=
  ⟨[], [⟨(0, 0), 0, 0, some ghostStudent, false⟩], 1, 1, [], -1⟩

/-- C8 counterexample: relinking a seat whose occupant uuid has no
canonical roster instance does not drop the assignment; the seat keeps
the copied occupant instead of becoming empty. -/
theorem relink_drop_claim_cex :
    (dGhost.relinkStudentReferences).seats.map (fun s => s.student) = [some ghostStudent] ∧
      (some ghostStudent : Option Student) ≠ none := by
  refine ⟨by decide, by decide⟩

/-- C8 as amended: relinking replaces every occupant that has a
canonical roster instance with that instance, and leaves a seat
completely unchanged when the occupant uuid has no roster instance
(only a warning is logged) or when the seat is empty. -/
theorem relink_spec (d : SeatingData) :
    ∀ i seat, d.seats.get? i = some seat →
      ∃ seatR, (d.relinkStudentReferences).seats.get? i = some seatR ∧
        (seat.student = none → seatR = seat) ∧
        (∀ st, seat.student = some st →
          (∀ canonical, d.findStudentByUuid st.uuid = some canonical →
              seatR = { seat with student := some canonical }) ∧
          (d.findStudentByUuid st.uuid = none → seatR = seat)) := by
  intro i seat hseat
  have hmap : (d.relinkStudentReferences).seats.get? i = some (
      match seat.student with
      | some st =>
          match d.students.find? (fun s => s.uuid == st.uuid) with
          | some canonical => { seat with student := some canonical }
          | none => seat
      | none => seat) := by
    simp only [SeatingData.relinkStudentReferences, List.get?_eq_getElem?, List.getElem?_map]
    rw [List.get?_eq_getElem?] at hseat
    rw [hseat]
    rfl
  refine ⟨_, hmap, ?_, ?_⟩
  · intro hnone
    simp [hnone]
  · intro st hst
    constructor
    · intro canonical hcan
      have hfind : d.students.find? (fun s => s.uuid == st.uuid) = some canonical := hcan
      simp [hst, hfind]
    · intro hcan
      have hfind : d.students.find? (fun s => s.uuid == st.uuid) = none := hcan
      simp [hst, hfind]

/-- A seat holding a value-copy of the canonical roster student. -/
def seatCopyA : Seat := ⟨(0, 0), 0, 0, some ⟨1, "A", none⟩, false⟩

/-- The canonical roster instance sharing uuid 1 with the copy. -/
def canonicalA : Student := ⟨1, "A", some (0, 0)⟩

/-- A seat holding a student uuid with no roster entry. -/
def seatGhost : Seat := ⟨(0, 1), 0, 1, some ghostStudent, false⟩

/-- Post-load state with one relinkable and one orphaned occupant. -/
def dRelink : SeatingData := ⟨[canonicalA], [seatCopyA, seatGhost], 1, 2, [], -1⟩

/-- Witness for C8 as amended: the copied occupant is replaced by the
canonical instance, the orphaned occupant is kept unchanged. -/
theorem relink_spec_witness :
    (dRelink.relinkStudentReferences).seats.get? 0
        = some { seatCopyA with student := some canonicalA } ∧
      (dRelink.relinkStudentReferences).seats.get? 1 = some seatGhost := by
  obtain ⟨s0, h0, -, h0s⟩ := relink_spec dRelink 0 seatCopyA (by rfl)
  obtain ⟨s1, h1, -, h1s⟩ := relink_spec dRelink 1 seatGhost (by rfl)
  have e0 : s0 = { seatCopyA with student := some canonicalA } :=
    (h0s ⟨1, "A", none⟩ rfl).1 canonicalA (by decide)
  have e1 : s1 = seatGhost := (h1s ghostStudent rfl).2 (by decide)
  rw [e0] at h0
  rw [e1] at h1
  exact ⟨h0, h1⟩

/-- The rejection condition of the claim for one selected seat: its
translated coordinate leaves the grid or its translated target seat is
deleted (or absent from the collection). -/
def translationViolation (d : SeatingData) (rowOffset colOffset : Int) (src : Seat) : Prop :=
  ((src.row : Int) + rowOffset < 0 ∨ (d.rows : Int) ≤ (src.row : Int) + rowOffset ∨
    (src.col : Int) + colOffset < 0 ∨ (d.cols : Int) ≤ (src.col : Int) + colOffset) ∨
  (∀ t, d.seats.find? (fun s =>
      ((s.row : Int) == (src.row : Int) + rowOffset) &&
      ((s.col : Int) == (src.col : Int) + colOffset)) = some t → t.isDeleted = true)

lemma checkMultiDropLoop_none_of_violation (d : SeatingData) (rowOffset colOffset : Int)
    (sel : List SeatId) (sids : List SeatId)
    (h : ∃ sid ∈ sids, ∃ src, d.findSeatById sid = some src ∧
      translationViolation d rowOffset colOffset src) :
    checkMultiDropLoop d rowOffset colOffset sel sids = none := by
  induction sids with
  | nil => simp at h
  | cons sid rest ih =>
    obtain ⟨sid', hmem, src', hfind, hviol⟩ := h
    unfold checkMultiDropLoop
    rcases List.mem_cons.mp hmem with heq | hmemRest
    · subst heq
      rw [hfind]
      dsimp only
      rcases hviol with hbounds | htgt
      · rw [if_pos hbounds]
      · by_cases hbounds : (src'.row : Int) + rowOffset < 0 ∨
            (d.rows : Int) ≤ (src'.row : Int) + rowOffset ∨
            (src'.col : Int) + colOffset < 0 ∨ (d.cols : Int) ≤ (src'.col : Int) + colOffset
        · rw [if_pos hbounds]
        · rw [if_neg hbounds]
          cases hf : d.seats.find? (fun s =>
              ((s.row : Int) == (src'.row : Int) + rowOffset) &&
              ((s.col : Int) == (src'.col : Int) + colOffset)) with
          | none => rfl
          | some t =>
            dsimp only
            rw [if_pos (htgt t hf)]
    · have hrest : checkMultiDropLoop d rowOffset colOffset sel rest = none :=
        ih ⟨sid', hmemRest, src', hfind, hviol⟩
      cases hfindHead : d.findSeatById sid with
      | none => exact hrest
      | some srcHead =>
        dsimp only
        by_cases hbounds : (srcHead.row : Int) + rowOffset < 0 ∨
            (d.rows : Int) ≤ (srcHead.row : Int) + rowOffset ∨
            (srcHead.col : Int) + colOffset < 0 ∨ (d.cols : Int) ≤ (srcHead.col : Int) + colOffset
        · rw [if_pos hbounds]
        · rw [if_neg hbounds]
          cases hf : d.seats.find? (fun s =>
              ((s.row : Int) == (srcHead.row : Int) + rowOffset) &&
              ((s.col : Int) == (srcHead.col : Int) + colOffset)) with
          | none => rfl
          | some t =>
            dsimp only
            cases hdel : t.isDeleted with
            | true => rfl
            | false =>
              rw [if_neg (by decide)]
              rw [hrest]

/-- C2: a rejected block move performs no mutation at all.  First
conjunct: whenever checkMultiDropTarget rejects, the state (seats,
roster and history) is returned unchanged.  Second conjunct: a plan in
which some selected seat translates out of [0,rows) x [0,cols) or onto a
deleted/absent seat is always rejected, so the state is unchanged. -/
theorem blockMove_rejected_noMutation (d : SeatingData) (targetSeatId : SeatId)
    (sourceSeatIds : List SeatId) (ts : Nat) :
    (checkMultiDropTarget d targetSeatId sourceSeatIds = none →
      executeMultiDropWithAllSeats d targetSeatId sourceSeatIds ts = d) ∧
    (∀ tSeat fid fSeat,
      d.findSeatById targetSeatId = some tSeat →
      sourceSeatIds.head? = some fid →
      d.findSeatById fid = some fSeat →
      (∃ sid ∈ sourceSeatIds, ∃ src, d.findSeatById sid = some src ∧
        translationViolation d ((tSeat.row : Int) - (fSeat.row : Int))
          ((tSeat.col : Int) - (fSeat.col : Int)) src) →
      executeMultiDropWithAllSeats d targetSeatId sourceSeatIds ts = d) := by
  constructor
  · intro hrej
    unfold executeMultiDropWithAllSeats
    rw [hrej]
  · intro tSeat fid fSeat htgt hhead hfirst hviol
    have hrej : checkMultiDropTarget d targetSeatId sourceSeatIds = none := by
      unfold checkMultiDropTarget
      rw [htgt]
      dsimp only
      cases hdel : tSeat.isDeleted with
      | true => rfl
      | false =>
        rw [if_neg (by decide)]
        cases sourceSeatIds with
        | nil => rfl
        | cons f rest =>
          have hf : f = fid := by simpa using hhead
          subst hf
          dsimp only
          rw [hfirst]
          dsimp only
          rw [checkMultiDropLoop_none_of_violation d _ _ _ _ hviol]
    unfold executeMultiDropWithAllSeats
    rw [hrej]

/-- Witness for C2: on the 2 x 2 state with A at (0,0) and B at (0,1),
the block move of selection [(0,0), (0,1)] to (1,1) translates (0,1) to
column 2, out of bounds, and the call leaves the state unchanged. -/
theorem blockMove_rejected_noMutation_witness :
    executeMultiDropWithAllSeats dABrow (1, 1) [(0, 0), (0, 1)] 99 = dABrow :=
  (blockMove_rejected_noMutation dABrow (1, 1) [(0, 0), (0, 1)] 99).2
    ⟨(1, 1), 1, 1, none, false⟩ (0, 0) ⟨(0, 0), 0, 0, some demoA, false⟩
    (by decide) (by decide) (by decide)
    ⟨(0, 1), by decide, ⟨(0, 1), 0, 1, some demoB, false⟩, by decide,
      Or.inl (by decide)⟩

/-- The last n elements of a list (what survives the history eviction). -/
def lastN {α : Type} (n : Nat) (l : List α) : List α := l.drop (l.length - n)

/-- One record call, packaged for folding a call sequence. -/
def recordStep (d : SeatingData) (a : String × List Seat × Nat) : SeatingData :=
  d.addToHistory a.1 a.2.1 a.2.2

/-- The history entry a record call appends. -/
def entryOf (a : String × List Seat × Nat) : HistoryEntry := ⟨a.1, a.2.1, a.2.2⟩

lemma lastN_of_le {α : Type} (n : Nat) (l : List α) (h : l.length ≤ n) : lastN n l = l := by
  have h0 : l.length - n = 0 := by omega
  simp [lastN, h0]

lemma lastN_append_lastN {α : Type} (n : Nat) (A B : List α) :
    lastN n (lastN n A ++ B) = lastN n (A ++ B) := by
  by_cases h : A.length ≤ n
  · rw [lastN_of_le n A h]
  · have hlenA : (lastN n A).length = n := by
      simp only [lastN, List.length_drop]
      omega
    have hL : (lastN n A ++ B).length - n = B.length := by
      rw [List.length_append, hlenA]
      omega
    have hR : (A ++ B).length - n = (A.length - n) + B.length := by
      rw [List.length_append]
      omega
    show (lastN n A ++ B).drop ((lastN n A ++ B).length - n) = (A ++ B).drop ((A ++ B).length - n)
    rw [hL, hR]
    have hsplit : A ++ B = A.take (A.length - n) ++ (A.drop (A.length - n) ++ B) := by
      rw [← List.append_assoc, List.take_append_drop]
    rw [hsplit]
    have hlt : (A.take (A.length - n)).length = A.length - n := by
      rw [List.length_take]
      omega
    rw [show (A.length - n) + B.length = (A.take (A.length - n)).length + B.length from by rw [hlt]]
    rw [List.drop_append]
    rfl

lemma addToHistory_step (d : SeatingData) (a : String) (s : List Seat) (ts : Nat)
    (hidx : d.historyIndex = (d.history.length : Int) - 1)
    (hlen : d.history.length ≤ 5) :
    (d.addToHistory a s ts).history = lastN 5 (d.history ++ [⟨a, s, ts⟩]) ∧
      (d.addToHistory a s ts).historyIndex
        = ((d.addToHistory a s ts).history.length : Int) - 1 ∧
      (d.addToHistory a s ts).history.length ≤ 5 ∧
      (d.addToHistory a s ts).seats = d.seats ∧
      (d.addToHistory a s ts).students = d.students := by
  have htoNat : (d.historyIndex + 1).toNat = d.history.length := by
    rw [hidx]
    omega
  have htake : d.history.take (d.historyIndex + 1).toNat = d.history := by
    rw [htoNat, List.take_length]
  simp only [SeatingData.addToHistory, htake, MAX_HISTORY_SIZE]
  by_cases hfull : d.history.length = 5
  · have hgt : (d.history ++ [(⟨a, s, ts⟩ : HistoryEntry)]).length > 5 := by
      simp [hfull]
    rw [if_pos hgt]
    have hdroplen : ((d.history ++ [(⟨a, s, ts⟩ : HistoryEntry)]).drop
        ((d.history ++ [(⟨a, s, ts⟩ : HistoryEntry)]).length - 5)).length = 5 := by
      rw [List.length_drop]
      simp [hfull]
    refine ⟨rfl, ?_, ?_, rfl, rfl⟩
    · simp only [hdroplen]
    · rw [hdroplen]
  · have hlt : d.history.length < 5 := by omega
    have hngt : ¬ (d.history ++ [(⟨a, s, ts⟩ : HistoryEntry)]).length > 5 := by
      simp
      omega
    rw [if_neg hngt]
    have hle : (d.history ++ [(⟨a, s, ts⟩ : HistoryEntry)]).length ≤ 5 := by
      simp
      omega
    refine ⟨(lastN_of_le 5 _ hle).symm, ?_, hle, rfl, rfl⟩
    rw [hidx]
    simp

lemma foldRecord_history (l : List (String × List Seat × Nat)) :
    ∀ d : SeatingData, d.historyIndex = (d.history.length : Int) - 1 →
      d.history.length ≤ 5 →
      (l.foldl recordStep d).history = lastN 5 (d.history ++ l.map entryOf) ∧
        (l.foldl recordStep d).historyIndex
          = (((l.foldl recordStep d).history.length : Int)) - 1 ∧
        (l.foldl recordStep d).history.length ≤ 5 := by
  induction l with
  | nil =>
    intro d h1 h2
    exact ⟨by simp [lastN_of_le 5 _ h2], h1, h2⟩
  | cons a l ih =>
    intro d h1 h2
    have hstep := addToHistory_step d a.1 a.2.1 a.2.2 h1 h2
    have hfold := ih (recordStep d a) hstep.2.1 hstep.2.2.1
    rw [List.foldl_cons]
    refine ⟨?_, hfold.2.1, hfold.2.2⟩
    rw [hfold.1]
    have hrs : (recordStep d a).history = lastN 5 (d.history ++ [entryOf a]) := hstep.1
    rw [hrs, lastN_append_lastN]
    simp

lemma lastN_append_right {α : Type} (n : Nat) (A B : List α) (h : n ≤ B.length) :
    lastN n (A ++ B) = lastN n B := by
  unfold lastN
  rw [List.length_append]
  have harith : A.length + B.length - n = A.length + (B.length - n) := by omega
  rw [harith, List.drop_append]

lemma undo_at (d : SeatingData) (k : Int) (h : d.historyIndex = k) (hk : 0 ≤ k) :
    d.undo = (d.history.get? k.toNat, { d with historyIndex := k - 1 }) := by
  unfold SeatingData.undo
  rw [h, if_pos hk]

lemma undo_neg (d : SeatingData) (h : d.historyIndex < 0) : d.undo = (none, d) := by
  unfold SeatingData.undo
  rw [if_neg (by omega)]

/-- C4: after more than five successive record calls the history holds
exactly the five most recent entries with the pointer clamped to the
topmost slot, and undo returns those five snapshots newest-first, then
none on the sixth call. -/
theorem bounded_history_undo (d : SeatingData) (l : List (String × List Seat × Nat))
    (hidx : d.historyIndex = (d.history.length : Int) - 1)
    (hlen : d.history.length ≤ 5)
    (hN : 5 < l.length) :
    (l.foldl recordStep d).history = (l.map entryOf).drop (l.length - 5) ∧
      (l.foldl recordStep d).historyIndex = 4 ∧
      ((l.foldl recordStep d).undo).1 = (l.map entryOf).get? (l.length - 1) ∧
      (((l.foldl recordStep d).undo).2.undo).1 = (l.map entryOf).get? (l.length - 2) ∧
      ((((l.foldl recordStep d).undo).2.undo).2.undo).1
        = (l.map entryOf).get? (l.length - 3) ∧
      (((((l.foldl recordStep d).undo).2.undo).2.undo).2.undo).1
        = (l.map entryOf).get? (l.length - 4) ∧
      ((((((l.foldl recordStep d).undo).2.undo).2.undo).2.undo).2.undo).1
        = (l.map entryOf).get? (l.length - 5) ∧
      (((((((l.foldl recordStep d).undo).2.undo).2.undo).2.undo).2.undo).2.undo).1
        = none := by
  have hfold := foldRecord_history l d hidx hlen
  have hmaplen : (l.map entryOf).length = l.length := List.length_map _ _
  have hhist : (l.foldl recordStep d).history = (l.map entryOf).drop (l.length - 5) := by
    rw [hfold.1, lastN_append_right 5 _ _ (by omega)]
    unfold lastN
    rw [hmaplen]
  have hlen5 : (l.foldl recordStep d).history.length = 5 := by
    rw [hhist, List.length_drop, hmaplen]
    omega
  have hidx4 : (l.foldl recordStep d).historyIndex = 4 := by
    rw [hfold.2.1, hlen5]
    rfl
  have hget : ∀ j : Nat, (l.foldl recordStep d).history.get? j
      = (l.map entryOf).get? (l.length - 5 + j) := by
    intro j
    rw [hhist, List.get?_eq_getElem?, List.get?_eq_getElem?, List.getElem?_drop]
  have e1 : (l.foldl recordStep d).undo
      = ((l.foldl recordStep d).history.get? 4,
         { (l.foldl recordStep d) with historyIndex := 3 }) := by
    rw [undo_at _ 4 hidx4 (by norm_num)]
    rfl
  have e2 : ({ (l.foldl recordStep d) with historyIndex := (3 : Int) }).undo
      = ((l.foldl recordStep d).history.get? 3,
         { (l.foldl recordStep d) with historyIndex := 2 }) := by
    rw [undo_at _ 3 rfl (by norm_num)]
    rfl
  have e3 : ({ (l.foldl recordStep d) with historyIndex := (2 : Int) }).undo
      = ((l.foldl recordStep d).history.get? 2,
         { (l.foldl recordStep d) with historyIndex := 1 }) := by
    rw [undo_at _ 2 rfl (by norm_num)]
    rfl
  have e4 : ({ (l.foldl recordStep d) with historyIndex := (1 : Int) }).undo
      = ((l.foldl recordStep d).history.get? 1,
         { (l.foldl recordStep d) with historyIndex := 0 }) := by
    rw [undo_at _ 1 rfl (by norm_num)]
    rfl
  have e5 : ({ (l.foldl recordStep d) with historyIndex := (0 : Int) }).undo
      = ((l.foldl recordStep d).history.get? 0,
         { (l.foldl recordStep d) with historyIndex := -1 }) := by
    rw [undo_at _ 0 rfl (by norm_num)]
    rfl
  have e6 : ({ (l.foldl recordStep d) with historyIndex := (-1 : Int) }).undo
      = (none, { (l.foldl recordStep d) with historyIndex := -1 }) :=
    undo_neg _ (by norm_num)
  refine ⟨hhist, hidx4, ?_, ?_, ?_, ?_, ?_, ?_⟩
  · rw [e1]
    dsimp only
    rw [hget 4, (by omega : l.length - 5 + 4 = l.length - 1)]
  · rw [e1]
    dsimp only
    rw [e2]
    dsimp only
    rw [hget 3, (by omega : l.length - 5 + 3 = l.length - 2)]
  · rw [e1]
    dsimp only
    rw [e2]
    dsimp only
    rw [e3]
    dsimp only
    rw [hget 2, (by omega : l.length - 5 + 2 = l.length - 3)]
  · rw [e1]
    dsimp only
    rw [e2]
    dsimp only
    rw [e3]
    dsimp only
    rw [e4]
    dsimp only
    rw [hget 1, (by omega : l.length - 5 + 1 = l.length - 4)]
  · rw [e1]
    dsimp only
    rw [e2]
    dsimp only
    rw [e3]
    dsimp only
    rw [e4]
    dsimp only
    rw [e5]
    dsimp only
    rw [hget 0, (by omega : l.length - 5 + 0 = l.length - 5)]
  · rw [e1]
    dsimp only
    rw [e2]
    dsimp only
    rw [e3]
    dsimp only
    rw [e4]
    dsimp only
    rw [e5]
    dsimp only
    rw [e6]

/-- Fresh session state for the history witness. -/
def histStart : SeatingData := ⟨[], [], 1, 1, [], -1⟩

/-- Six successive record calls. -/
def recSeq : List (String × List Seat × Nat) :=
  [("seatArrangement", [], 1), ("seatArrangement", [], 2), ("seatArrangement", [], 3),
   ("seatArrangement", [], 4), ("seatArrangement", [], 5), ("seatArrangement", [], 6)]

/-- Witness for C4: six records on a fresh state retain entries 2..6
with the pointer at the top; the first undo returns entry 6 and the
sixth returns none. -/
theorem bounded_history_undo_witness :
    (recSeq.foldl recordStep histStart).history
        = [entryOf ("seatArrangement", [], 2), entryOf ("seatArrangement", [], 3),
           entryOf ("seatArrangement", [], 4), entryOf ("seatArrangement", [], 5),
           entryOf ("seatArrangement", [], 6)] ∧
      (recSeq.foldl recordStep histStart).historyIndex = 4 ∧
      ((recSeq.foldl recordStep histStart).undo).1
        = some (entryOf ("seatArrangement", [], 6)) ∧
      (((((((recSeq.foldl recordStep histStart).undo).2.undo).2.undo).2.undo).2.undo).2.undo).1
        = none := by
  have h := bounded_history_undo histStart recSeq (by decide) (by decide) (by decide)
  refine ⟨h.1.trans (by decide), h.2.1, h.2.2.1.trans (by decide), h.2.2.2.2.2.2.2⟩

lemma find?_range_pair (row col cols : Nat) (mk : Nat → Nat → Seat)
    (hid : ∀ r c, (mk r c).id = (r, c)) (hc : col < cols) :
    (List.range cols).find? (fun c => (mk row c).id == ((row, col) : SeatId)) = some col := by
  induction cols with
  | zero => omega
  | succ m ih =>
    rw [List.range_succ, List.find?_append]
    by_cases hcm : col < m
    · rw [ih hcm]
      rfl
    · have hcol : col = m := by omega
      subst hcol
      have hnone : (List.range col).find?
          (fun c => (mk row c).id == ((row, col) : SeatId)) = none := by
        rw [List.find?_eq_none]
        intro c hcmem
        have hlt : c < col := List.mem_range.mp hcmem
        simp [hid]
        omega
      rw [hnone, Option.none_or]
      simp [hid]

lemma find?_grid (rows cols row col : Nat) (mk : Nat → Nat → Seat)
    (hid : ∀ r c, (mk r c).id = (r, c)) (hr : row < rows) (hc : col < cols) :
    ((List.range rows).flatMap (fun r => (List.range cols).map (fun c => mk r c))).find?
        (fun s => s.id == ((row, col) : SeatId)) = some (mk row col) := by
  induction rows with
  | zero => omega
  | succ n ih =>
    rw [List.range_succ, List.flatMap_append, List.find?_append]
    by_cases hrow : row < n
    · rw [ih hrow]
      rfl
    · have hrn : row = n := by omega
      subst hrn
      have hnone : ((List.range row).flatMap
          (fun r => (List.range cols).map (fun c => mk r c))).find?
          (fun s => s.id == ((row, col) : SeatId)) = none := by
        rw [List.find?_eq_none]
        intro x hx
        obtain ⟨r, hrmem, hxmem⟩ := List.mem_flatMap.mp hx
        obtain ⟨c, hcmem, hxeq⟩ := List.mem_map.mp hxmem
        subst hxeq
        have hlt : r < row := List.mem_range.mp hrmem
        simp [hid]
        omega
      rw [hnone, Option.none_or]
      simp only [List.flatMap_cons, List.flatMap_nil, List.append_nil]
      rw [List.find?_map]
      rw [show ((fun s => s.id == ((row, col) : SeatId)) ∘ fun c => mk row c)
          = (fun c => (mk row c).id == ((row, col) : SeatId)) from rfl]
      rw [find?_range_pair row col cols mk hid hc]
      rfl

/-- C10: re-initialising the grid keeps, for every coordinate inside the
new dimensions, the previous occupant and deleted flag of the seat with
the same id (the last seat with that id, as the dictionary build lets
later entries win); every seat of the new collection lies inside the new
dimensions, so seats outside them are discarded (their occupants with
them, silently). -/
theorem initializeSeats_preserves_assignments (d : SeatingData) (row col : Nat)
    (hr : row < d.rows) (hc : col < d.cols) :
    (∀ st del, existingSeatData d.seats (row, col) = some (st, del) →
      (d.initializeSeats).seats.find? (fun s => s.id == ((row, col) : SeatId))
        = some ⟨(row, col), row, col, st, del⟩) ∧
    (existingSeatData d.seats (row, col) = none →
      (d.initializeSeats).seats.find? (fun s => s.id == ((row, col) : SeatId))
        = some ⟨(row, col), row, col, none, false⟩) ∧
    (∀ s, s ∈ (d.initializeSeats).seats → s.row < d.rows ∧ s.col < d.cols ∧
      s.id = (s.row, s.col)) := by
  have hmk : ∀ r c, ((fun r c =>
      match existingSeatData d.seats (r, c) with
      | some (st, del) =>
          ({ id := (r, c), row := r, col := c, student := st, isDeleted := del } : Seat)
      | none =>
          ({ id := (r, c), row := r, col := c, student := none, isDeleted := false } : Seat))
        r c).id = (r, c) := by
    intro r c
    cases hE : existingSeatData d.seats (r, c) with
    | none => simp [hE]
    | some pair =>
      cases pair with
      | mk st del => simp [hE]
  refine ⟨?_, ?_, ?_⟩
  · intro st del hE
    have h := find?_grid d.rows d.cols row col _ hmk hr hc
    rw [hE] at h
    exact h
  · intro hE
    have h := find?_grid d.rows d.cols row col _ hmk hr hc
    rw [hE] at h
    exact h
  · intro s hs
    obtain ⟨r, hrmem, hsmem⟩ := List.mem_flatMap.mp hs
    obtain ⟨c, hcmem, hseq⟩ := List.mem_map.mp hsmem
    have hrlt : r < d.rows := List.mem_range.mp hrmem
    have hclt : c < d.cols := List.mem_range.mp hcmem
    subst hseq
    cases hE : existingSeatData d.seats (r, c) with
    | none =>
      simp only [hE]
      exact ⟨hrlt, hclt, trivial⟩
    | some pair =>
      cases pair with
      | mk st del =>
        simp only [hE]
        exact ⟨hrlt, hclt, trivial⟩

/-- Witness for C10: shrinking dAB from 2 x 2 to 1 x 2 keeps seat (0,0)
with occupant A; the new collection only holds row-0 seats, so B at
(1,1) is gone from the seat list. -/
theorem initializeSeats_preserves_witness :
    (({ dAB with rows := 1 } : SeatingData).initializeSeats).seats.find?
        (fun s => s.id == ((0, 0) : SeatId)) = some ⟨(0, 0), 0, 0, some demoA, false⟩ :=
  ((initializeSeats_preserves_assignments { dAB with rows := 1 } 0 0 (by decide)
      (by decide)).1 (some demoA) false (by decide))

lemma updateFirst_cons_pos (p : Seat → Bool) (f : Seat → Seat) (s : Seat) (rest : List Seat)
    (h : p s = true) : updateFirst p f (s :: rest) = f s :: rest := by
  rw [updateFirst, h]
  simp

lemma updateFirst_cons_neg (p : Seat → Bool) (f : Seat → Seat) (s : Seat) (rest : List Seat)
    (h : p s = false) : updateFirst p f (s :: rest) = s :: updateFirst p f rest := by
  rw [updateFirst, h]
  simp

lemma updateFirst_get?_of_not (p : Seat → Bool) (f : Seat → Seat) :
    ∀ (l : List Seat) (j : Nat), (∀ s, l.get? j = some s → p s = false) →
      (updateFirst p f l).get? j = l.get? j := by
  intro l
  induction l with
  | nil => intro j _; rfl
  | cons s rest ih =>
    intro j h
    cases hp : p s with
    | true =>
      rw [updateFirst_cons_pos p f s rest hp]
      cases j with
      | zero =>
        have hps := h s rfl
        rw [hp] at hps
        cases hps
      | succ j => rfl
    | false =>
      rw [updateFirst_cons_neg p f s rest hp]
      cases j with
      | zero => rfl
      | succ j => exact ih j (fun s₀ h₀ => h s₀ h₀)

lemma modifyAt_get?_same (f : Seat → Seat) :
    ∀ (l : List Seat) (i : Nat), (modifyAt i f l).get? i = (l.get? i).map f := by
  intro l
  induction l with
  | nil => intro i; simp [modifyAt]
  | cons s rest ih =>
    intro i
    cases i with
    | zero => rfl
    | succ i => exact ih i

lemma modifyAt_get?_other (f : Seat → Seat) :
    ∀ (l : List Seat) (i j : Nat), i ≠ j → (modifyAt i f l).get? j = l.get? j := by
  intro l
  induction l with
  | nil => intro i j _; simp [modifyAt]
  | cons s rest ih =>
    intro i j hij
    cases i with
    | zero =>
      cases j with
      | zero => exact absurd rfl hij
      | succ j => rfl
    | succ i =>
      cases j with
      | zero => rfl
      | succ j => exact ih i j (by omega)

lemma find?_updateFirst_same (a : SeatId) (f : Seat → Seat)
    (hf : ∀ s, (f s).id = s.id) :
    ∀ l : List Seat, (updateFirst (fun s => s.id == a) f l).find? (fun s => s.id == a)
      = (l.find? (fun s => s.id == a)).map f := by
  intro l
  induction l with
  | nil => rfl
  | cons s rest ih =>
    cases hp : (s.id == a) with
    | true =>
      rw [updateFirst_cons_pos _ f s rest hp]
      rw [List.find?_cons, List.find?_cons]
      have hfp : ((f s).id == a) = true := by rw [hf]; exact hp
      rw [hfp, hp]
      rfl
    | false =>
      rw [updateFirst_cons_neg _ f s rest hp]
      rw [List.find?_cons, List.find?_cons, hp]
      exact ih

lemma find?_updateFirst_ne (a b : SeatId) (f : Seat → Seat)
    (hf : ∀ s, (f s).id = s.id) (hab : a ≠ b) :
    ∀ l : List Seat, (updateFirst (fun s => s.id == a) f l).find? (fun s => s.id == b)
      = l.find? (fun s => s.id == b) := by
  intro l
  induction l with
  | nil => rfl
  | cons s rest ih =>
    cases hp : (s.id == a) with
    | true =>
      rw [updateFirst_cons_pos _ f s rest hp]
      rw [List.find?_cons, List.find?_cons]
      have hsa : s.id = a := by simpa using hp
      have hsb : (s.id == b) = false := by
        simp [hsa]
        exact hab
      have hfb : ((f s).id == b) = false := by rw [hf]; exact hsb
      rw [hfb, hsb]
    | false =>
      rw [updateFirst_cons_neg _ f s rest hp]
      rw [List.find?_cons, List.find?_cons]
      cases hpb : (s.id == b) with
      | true => rfl
      | false => exact ih

lemma find?_modifyAt_of_pred_false (b : SeatId) (f : Seat → Seat)
    (hf : ∀ s, (f s).id = s.id) :
    ∀ (l : List Seat) (i : Nat), (∀ s, l.get? i = some s → (s.id == b) = false) →
      (modifyAt i f l).find? (fun s => s.id == b) = l.find? (fun s => s.id == b) := by
  intro l
  induction l with
  | nil => intro i _; simp [modifyAt]
  | cons s rest ih =>
    intro i h
    cases i with
    | zero =>
      have hsb := h s rfl
      show (f s :: rest).find? (fun s => s.id == b) = (s :: rest).find? (fun s => s.id == b)
      rw [List.find?_cons, List.find?_cons]
      have hfb : ((f s).id == b) = false := by rw [hf]; exact hsb
      rw [hfb, hsb]
    | succ i =>
      show (s :: modifyAt i f rest).find? (fun s => s.id == b)
          = (s :: rest).find? (fun s => s.id == b)
      rw [List.find?_cons, List.find?_cons]
      cases hpb : (s.id == b) with
      | true => rfl
      | false => exact ih i (fun s₀ h₀ => h s₀ h₀)

lemma addToHistory_seats (d : SeatingData) (a : String) (s : List Seat) (ts : Nat) :
    (d.addToHistory a s ts).seats = d.seats := by
  simp only [SeatingData.addToHistory]
  split <;> rfl

/-- C5: assignStudentToSeat mutates nothing when the target seat is
missing or deleted or the student is unknown; it is a no-op when the
student already sits in the target; otherwise, when the student
currently occupies another seat (the first seat holding the uuid, at
index i), the target seat receives the student, the old seat receives
whatever previously occupied the target (possibly nothing - a two-seat
swap), and every other seat is untouched. -/
theorem assignStudentToSeat_spec (d : SeatingData) (u : Uuid) (tid : SeatId) (ts : Nat) :
    ((d.findSeatById tid = none ∨ ∃ t, d.findSeatById tid = some t ∧ t.isDeleted = true) →
      assignStudentToSeat d u tid ts = d) ∧
    (d.findStudentByUuid u = none → assignStudentToSeat d u tid ts = d) ∧
    (∀ i c, firstIdx? (occupiedBy u) d.seats = some i → d.seats.get? i = some c →
      c.id = tid → assignStudentToSeat d u tid ts = d) ∧
    (∀ stu t i c, d.findStudentByUuid u = some stu → d.findSeatById tid = some t →
      t.isDeleted = false →
      firstIdx? (occupiedBy u) d.seats = some i → d.seats.get? i = some c →
      c.id ≠ tid →
      (assignStudentToSeat d u tid ts).seats.find? (fun s => s.id == tid)
          = some { t with student := some stu } ∧
      (assignStudentToSeat d u tid ts).seats.get? i = some { c with student := t.student } ∧
      (∀ j s₀, j ≠ i → d.seats.get? j = some s₀ → (s₀.id == tid) = false →
        (assignStudentToSeat d u tid ts).seats.get? j = some s₀)) := by
  refine ⟨?_, ?_, ?_, ?_⟩
  · intro h
    unfold assignStudentToSeat
    rcases h with hnone | ⟨t, ht, hdel⟩
    · rw [hnone]
      cases hstu : d.findStudentByUuid u <;> rfl
    · rw [ht]
      cases hstu : d.findStudentByUuid u with
      | none => rfl
      | some stu =>
        simp only [hdel]
        rw [if_pos trivial]
  · intro h
    unfold assignStudentToSeat
    rw [h]
  · intro i c hidx hget heq
    unfold assignStudentToSeat
    cases hstu : d.findStudentByUuid u with
    | none => rfl
    | some stu =>
      cases hft : d.findSeatById tid with
      | none => rfl
      | some t =>
        dsimp only
        cases hdel : t.isDeleted with
        | true => rfl
        | false =>
          rw [if_neg (by decide)]
          rw [hidx, Option.some_bind]
          dsimp only
          rw [hget]
          dsimp only
          rw [if_pos (by simp [heq])]
  · intro stu t i c hstu hft hdel hidx hget hne
    have hpred : ∀ s₀, d.seats.get? i = some s₀ → (s₀.id == tid) = false := by
      intro s₀ h₀
      rw [hget] at h₀
      injection h₀ with h₀
      subst h₀
      simp
      exact hne
    have hseats : (assignStudentToSeat d u tid ts).seats
        = modifyAt i (fun s => { s with student := t.student })
            (updateFirst (fun s => s.id == tid)
              (fun s => { s with student := some stu }) d.seats) := by
      unfold assignStudentToSeat
      rw [hstu, hft]
      dsimp only
      rw [if_neg (by simp [hdel])]
      rw [hidx, Option.some_bind]
      dsimp only
      rw [hget]
      dsimp only
      rw [if_neg (by simp [hne])]
      rw [addToHistory_seats]
      rfl
    rw [hseats]
    have hpred₁ : ∀ s₀, (updateFirst (fun s => s.id == tid)
        (fun s => { s with student := some stu }) d.seats).get? i = some s₀ →
        (s₀.id == tid) = false := by
      intro s₀ h₀
      rw [updateFirst_get?_of_not _ _ d.seats i hpred] at h₀
      exact hpred s₀ h₀
    refine ⟨?_, ?_, ?_⟩
    · rw [find?_modifyAt_of_pred_false tid (fun s => { s with student := t.student })
        (fun _ => rfl) _ i hpred₁]
      rw [find?_updateFirst_same tid (fun s => { s with student := some stu }) (fun _ => rfl)]
      have hfind : d.seats.find? (fun s => s.id == tid) = some t := hft
      rw [hfind]
      rfl
    · rw [modifyAt_get?_same]
      rw [updateFirst_get?_of_not _ _ d.seats i hpred]
      rw [hget]
      rfl
    · intro j s₀ hji hj hs₀
      rw [modifyAt_get?_other _ _ i j (by omega)]
      rw [updateFirst_get?_of_not _ _ d.seats j (fun s₁ h₁ => by
        rw [hj] at h₁
        injection h₁ with h₁
        subst h₁
        exact hs₀)]
      exact hj

/-- Witness for C5: on dAB, assigning A (uuid 1, sitting at (0,0)) to
seat (1,1) currently held by B swaps the two: (1,1) receives A and
(0,0) receives B. -/
theorem assignStudentToSeat_spec_witness :
    (assignStudentToSeat dAB 1 (1, 1) 30).seats.find? (fun s => s.id == ((1, 1) : SeatId))
        = some ⟨(1, 1), 1, 1, some ⟨1, "A", some (0, 0)⟩, false⟩ ∧
      (assignStudentToSeat dAB 1 (1, 1) 30).seats.get? 0
        = some ⟨(0, 0), 0, 0, some demoB, false⟩ := by
  have h := (assignStudentToSeat_spec dAB 1 (1, 1) 30).2.2.2 ⟨1, "A", some (0, 0)⟩
    ⟨(1, 1), 1, 1, some demoB, false⟩ 0 ⟨(0, 0), 0, 0, some demoA, false⟩
    (by decide) (by decide) (by decide) (by decide) (by decide) (by decide)
  exact ⟨h.1, h.2.1⟩

/-- Following the claim's words for C6 (offset from the anchor seat,
the seat under the pointer at gesture start, which drag-drop.js
prepareMultiSeatDrag stores as anchorSeatId): identical to
checkMultiDropTarget except that the offset reference is the given
anchor instead of the first selected seat.  Defined only for comparison
with the code. -/
def checkMultiDropTargetAnchor (d : SeatingData) (targetSeatId : SeatId)
    (selectedSeatIds : List SeatId) (anchorSeatId : SeatId) : Option DropResult :=
  match d.findSeatById targetSeatId with
  | none => none
  | some targetSeat =>
    if targetSeat.isDeleted then none
    else
      match d.findSeatById anchorSeatId with
      | none => none
      | some anchorSeat =>
        let rowOffset : Int := (targetSeat.row : Int) - (anchorSeat.row : Int)
        let colOffset : Int := (targetSeat.col : Int) - (anchorSeat.col : Int)
        match checkMultiDropLoop d rowOffset colOffset selectedSeatIds selectedSeatIds with
        | none => none
        | some (ps, ds) => some ⟨ps, ds⟩

/-- C6 counterexample: on dABrow (A at (0,0), B at (0,1)), with the
selection inserted in order [(0,0), (0,1)] and the drag started on the
pressed seat (0,1) (the anchor), dropping on (1,1) is rejected by the
code, while the claim's anchor-based offset rule accepts the move; the
code computes the offset from the first selected seat, not from the
anchor under the pointer. -/
theorem blockMove_anchor_claim_cex :
    checkMultiDropTarget dABrow (1, 1) [(0, 0), (0, 1)] = none ∧
      checkMultiDropTargetAnchor dABrow (1, 1) [(0, 0), (0, 1)] (0, 1) ≠ none := by
  refine ⟨by decide, by decide⟩

lemma checkMultiDropLoop_positions (d : SeatingData) (ro co : Int) (sel : List SeatId) :
    ∀ (sids : List SeatId) (ps : List DropPosition) (ds : List Student),
      checkMultiDropLoop d ro co sel sids = some (ps, ds) →
      ∀ pos ∈ ps, ∃ src, d.findSeatById pos.originalSeatId = some src ∧
        ∃ tgt, d.seats.find? (fun s => ((s.row : Int) == (src.row : Int) + ro) &&
            ((s.col : Int) == (src.col : Int) + co)) = some tgt ∧
          tgt.isDeleted = false ∧ pos.targetSeatId = tgt.id ∧ pos.student = src.student := by
  intro sids
  induction sids with
  | nil =>
    intro ps ds h pos hmem
    unfold checkMultiDropLoop at h
    have hps : ps = [] := by
      injection h with h
      exact (congrArg Prod.fst h).symm
    subst hps
    cases hmem
  | cons sid rest ih =>
    intro ps ds h pos hmem
    unfold checkMultiDropLoop at h
    cases hfind : d.findSeatById sid with
    | none =>
      rw [hfind] at h
      exact ih ps ds h pos hmem
    | some src =>
      rw [hfind] at h
      dsimp only at h
      by_cases hb : (src.row : Int) + ro < 0 ∨ (d.rows : Int) ≤ (src.row : Int) + ro ∨
          (src.col : Int) + co < 0 ∨ (d.cols : Int) ≤ (src.col : Int) + co
      · rw [if_pos hb] at h
        cases h
      · rw [if_neg hb] at h
        cases htf : d.seats.find? (fun s => ((s.row : Int) == (src.row : Int) + ro) &&
            ((s.col : Int) == (src.col : Int) + co)) with
        | none =>
          rw [htf] at h
          cases h
        | some t =>
          rw [htf] at h
          dsimp only at h
          by_cases hdel : t.isDeleted = true
          · rw [if_pos hdel] at h
            cases h
          · rw [if_neg hdel] at h
            cases hrec : checkMultiDropLoop d ro co sel rest with
            | none =>
              rw [hrec] at h
              cases h
            | some pr =>
              cases pr with
              | mk ps₀ ds₀ =>
                rw [hrec] at h
                dsimp only at h
                injection h with h
                have hps : (⟨sid, t.id, src.student⟩ : DropPosition) :: ps₀ = ps :=
                  congrArg Prod.fst h
                rw [← hps] at hmem
                rcases List.mem_cons.mp hmem with hhead | htail
                · subst hhead
                  exact ⟨src, hfind, t, htf, Bool.not_eq_true t.isDeleted ▸ hdel, rfl, rfl⟩
                · exact ih ps₀ ds₀ hrec pos htail

/-- C6 as amended: the block-move offset is computed from the FIRST
seat of the selection list (selectedSeatIds[0]); the anchor seat stored
by prepareMultiSeatDrag is not consulted.  Every accepted position
translates its source seat by exactly (target - firstSelected). -/
theorem blockMove_offset_from_first_selected (d : SeatingData) (targetSeatId : SeatId)
    (selectedSeatIds : List SeatId) (res : DropResult)
    (hacc : checkMultiDropTarget d targetSeatId selectedSeatIds = some res) :
    ∃ tSeat, d.findSeatById targetSeatId = some tSeat ∧ tSeat.isDeleted = false ∧
      ∃ fid, selectedSeatIds.head? = some fid ∧
        ∃ fSeat, d.findSeatById fid = some fSeat ∧
          ∀ pos ∈ res.positions, ∃ src, d.findSeatById pos.originalSeatId = some src ∧
            ∃ tgt, d.seats.find? (fun s =>
                ((s.row : Int) == (src.row : Int) + ((tSeat.row : Int) - (fSeat.row : Int))) &&
                ((s.col : Int) == (src.col : Int) + ((tSeat.col : Int) - (fSeat.col : Int))))
              = some tgt ∧
              tgt.isDeleted = false ∧ pos.targetSeatId = tgt.id ∧
              pos.student = src.student := by
  unfold checkMultiDropTarget at hacc
  cases ht : d.findSeatById targetSeatId with
  | none =>
    rw [ht] at hacc
    cases hacc
  | some tSeat =>
    rw [ht] at hacc
    dsimp only at hacc
    by_cases hdel : tSeat.isDeleted = true
    · rw [if_pos hdel] at hacc
      cases hacc
    · rw [if_neg hdel] at hacc
      cases selectedSeatIds with
      | nil => cases hacc
      | cons fid rest =>
        dsimp only at hacc
        cases hf : d.findSeatById fid with
        | none =>
          rw [hf] at hacc
          cases hacc
        | some fSeat =>
          rw [hf] at hacc
          dsimp only at hacc
          cases hloop : checkMultiDropLoop d ((tSeat.row : Int) - (fSeat.row : Int))
              ((tSeat.col : Int) - (fSeat.col : Int)) (fid :: rest) (fid :: rest) with
          | none =>
            rw [hloop] at hacc
            cases hacc
          | some pr =>
            cases pr with
            | mk ps ds =>
              rw [hloop] at hacc
              dsimp only at hacc
              injection hacc with hacc
              refine ⟨tSeat, rfl, Bool.not_eq_true tSeat.isDeleted ▸ hdel, fid, rfl,
                fSeat, hf, ?_⟩
              intro pos hmem
              have hps : res.positions = ps := by rw [← hacc]
              rw [hps] at hmem
              exact checkMultiDropLoop_positions d _ _ (fid :: rest) (fid :: rest)
                ps ds hloop pos hmem

/-- Witness for C6 as amended, at the accepted single-seat block move of
A from (0,0) to (1,1) on dAB (offset (1,1) from the first selected
seat). -/
theorem blockMove_offset_witness :
    ∃ tSeat, dAB.findSeatById (1, 1) = some tSeat ∧ tSeat.isDeleted = false ∧
      ∃ fid, ([((0 : Nat), (0 : Nat))] : List SeatId).head? = some fid ∧
        ∃ fSeat, dAB.findSeatById fid = some fSeat ∧
          ∀ pos ∈ (⟨[⟨(0, 0), (1, 1), some demoA⟩], [demoB]⟩ : DropResult).positions,
            ∃ src, dAB.findSeatById pos.originalSeatId = some src ∧
            ∃ tgt, dAB.seats.find? (fun s =>
                ((s.row : Int) == (src.row : Int) + ((tSeat.row : Int) - (fSeat.row : Int))) &&
                ((s.col : Int) == (src.col : Int) + ((tSeat.col : Int) - (fSeat.col : Int))))
              = some tgt ∧
              tgt.isDeleted = false ∧ pos.targetSeatId = tgt.id ∧
              pos.student = src.student :=
  blockMove_offset_from_first_selected dAB (1, 1) [(0, 0)]
    ⟨[⟨(0, 0), (1, 1), some demoA⟩], [demoB]⟩ (by decide)

/-- C1 (code bug): starting from the empty 2 x 2 grid, adding A and B,
seating A at (0,0) and B at (1,1) (all public operations), selecting
seats (0,0) and (0,1) with two toggles, then dropping that block onto
(1,0): the plan is accepted ((0,0) moves to (1,0), the empty (0,1)
moves onto (1,1)), B at (1,1) is collected as displaced and backfilled
into the net-vacated (0,0), but seat (1,1) is never cleared because its
incoming source seat was empty - afterwards B is referenced by two
distinct non-deleted seats, violating the injectivity invariant. -/
theorem executeMultiDrop_duplicates_student :
    (seatsHolding dAB.seats 2).length = 1 ∧
      (seatsHolding (executeMultiDropWithAllSeats dAB (1, 0)
          (toggleSeatSelection (toggleSeatSelection [] (0, 0) false) (0, 1) false) 12).seats
        2).length = 2 := by
  refine ⟨by decide, by decide⟩

/-- Roster A, B, C on the 2 x 2 grid. -/
def rosterABC : SeatingData := saveNewStudent rosterAB demoC

/-- A at (0,0), B at (0,1), C at (1,1), seat (1,0) deleted (all public
operations; the empty seat (1,0) is selectable by a modifier-click and
stays selected when its delete button is pressed). -/
def eSetup : SeatingData :=
  deleteSeat (assignStudentToSeat (assignStudentToSeat
    (assignStudentToSeat rosterABC 1 (0, 0) 20) 2 (0, 1) 21) 3 (1, 1) 22) (1, 0) 23

/-- Following the claim's words for C3's net-vacated seats V: the
selected source seats that are not also targets of the move, ordered by
their own row-major position (no further filtering).  Defined only for
comparison with the code, whose availableSourceSeatsOf additionally
drops missing and deleted seats. -/
def claimNetVacatedSeats (d : SeatingData) (sourceSeatIds targetIds : List SeatId) :
    List Seat :=
  sortByRC (fun s => (s.row, s.col))
    ((sourceSeatIds.filter (fun sid => !targetIds.contains sid)).filterMap d.findSeatById)

/-- The drop plan the code computes in the C3 counterexample. -/
def cexRes : DropResult :=
  ⟨[⟨(0, 0), (0, 1), some demoA⟩, ⟨(1, 0), (1, 1), none⟩], [demoB, demoC]⟩

/-- C3 counterexample: on eSetup, moving the selection [(0,0), (1,0)]
(the second seat deleted and empty) one column right is accepted.  The
claim's V (selected sources that are not targets, row-major) is
[(0,0), (1,0)] and its D (displaced, by displaced-from seat) is [B, C],
so the claim places C into seat (1,0); but the code filters the deleted
(1,0) out of the backfill list, seat (1,0) stays empty, and C - the
excess displaced student - does not end up with a cleared seat cache
either: it still occupies (1,1) (never overwritten, as its incoming
source seat was empty) and the final resync restores its cache to
(1,1). -/
theorem displacement_pairing_claim_cex :
    checkMultiDropTarget eSetup (0, 1) [(0, 0), (1, 0)] = some cexRes ∧
      (claimNetVacatedSeats eSetup [(0, 0), (1, 0)]
          (cexRes.positions.map (fun p => p.targetSeatId))).map (fun s => s.id)
        = [(0, 0), (1, 0)] ∧
      ((sortByRC (fun it => (it.2.row, it.2.col))
          (collectMoves [(0, 0), (1, 0)] cexRes.positions eSetup.seats).displaced).map
          (fun it => it.1.uuid)) = [2, 3] ∧
      ((executeMultiDropWithAllSeats eSetup (0, 1) [(0, 0), (1, 0)] 24).seats.find?
          (fun s => s.id == ((1, 0) : SeatId))).map (fun s => s.student) = some none ∧
      ((executeMultiDropWithAllSeats eSetup (0, 1) [(0, 0), (1, 0)] 24).students.find?
          (fun u => u.uuid == 3)).map (fun u => u.seatId) = some (some (1, 1)) := by
  refine ⟨by decide, by decide, by decide, by decide, by decide⟩

lemma updateFirst_map_id (p : Seat → Bool) (f : Seat → Seat)
    (hf : ∀ s, (f s).id = s.id) :
    ∀ l : List Seat, (updateFirst p f l).map (fun s => s.id) = l.map (fun s => s.id) := by
  intro l
  induction l with
  | nil => rfl
  | cons s rest ih =>
    cases hp : p s with
    | true =>
      rw [updateFirst_cons_pos p f s rest hp]
      simp [hf]
    | false =>
      rw [updateFirst_cons_neg p f s rest hp]
      simp only [List.map_cons, ih]

lemma collectMoves_seats_map_id (sids : List SeatId) :
    ∀ (ps : List DropPosition) (seats : List Seat),
      ((collectMoves sids ps seats).seats).map (fun s => s.id)
        = seats.map (fun s => s.id) := by
  intro ps
  induction ps with
  | nil => intro seats; rfl
  | cons pos rest ih =>
    intro seats
    unfold collectMoves
    dsimp only
    cases hsrc : seats.find? (fun s => s.id == pos.originalSeatId) with
    | none =>
      dsimp only
      exact ih seats
    | some ss =>
      dsimp only
      cases hst : ss.student with
      | none =>
        dsimp only
        exact ih seats
      | some st =>
        dsimp only
        rw [ih]
        exact updateFirst_map_id (fun s => s.id == pos.originalSeatId)
          (fun s => { s with student := none }) (fun _ => rfl) seats

lemma placeMoves_map_id :
    ∀ (mvs : List (Student × SeatId)) (seats : List Seat),
      (placeMoves mvs seats).map (fun s => s.id) = seats.map (fun s => s.id) := by
  intro mvs
  induction mvs with
  | nil => intro seats; rfl
  | cons m rest ih =>
    intro seats
    unfold placeMoves
    rw [List.foldl_cons]
    have := ih (updateFirst (fun s => s.id == m.2)
      (fun s => { s with student := some m.1 }) seats)
    unfold placeMoves at this
    rw [this]
    exact updateFirst_map_id (fun s => s.id == m.2)
      (fun s => { s with student := some m.1 }) (fun _ => rfl) seats

lemma find?_mem_id (b : SeatId) :
    ∀ l : List Seat, b ∈ l.map (fun s => s.id) →
      ∃ s, l.find? (fun s => s.id == b) = some s ∧ s.id = b := by
  intro l
  induction l with
  | nil => intro h; cases h
  | cons s rest ih =>
    intro h
    cases hp : (s.id == b) with
    | true =>
      refine ⟨s, ?_, by simpa using hp⟩
      rw [List.find?_cons, hp]
    | false =>
      have hb : b ∈ rest.map (fun s => s.id) := by
        rcases List.mem_cons.mp h with heq | hmem
        · exfalso
          rw [heq] at hp
          simp at hp
        · exact hmem
      obtain ⟨s₀, hfind, hid⟩ := ih hb
      refine ⟨s₀, ?_, hid⟩
      rw [List.find?_cons, hp]
      exact hfind

lemma placeDisplaced_find?_not_in (b : SeatId) :
    ∀ (ds : List (Student × Seat)) (vs : List Seat) (seats : List Seat),
      b ∉ vs.map (fun v => v.id) →
      (placeDisplaced ds vs seats).1.find? (fun s => s.id == b)
        = seats.find? (fun s => s.id == b) := by
  intro ds
  induction ds with
  | nil => intro vs seats _; rfl
  | cons item rest ih =>
    intro vs seats hb
    cases vs with
    | nil =>
      show (placeDisplaced rest [] seats).1.find? (fun s => s.id == b)
          = seats.find? (fun s => s.id == b)
      exact ih [] seats hb
    | cons v vs =>
      show (placeDisplaced rest vs (updateFirst (fun s => s.id == v.id)
            (fun s => { s with student := some item.1 }) seats)).1.find?
            (fun s => s.id == b)
          = seats.find? (fun s => s.id == b)
      have hbv : b ∉ vs.map (fun v => v.id) := by
        intro hmem
        exact hb (List.mem_cons_of_mem _ hmem)
      have hvb : v.id ≠ b := by
        intro heq
        apply hb
        rw [List.map_cons, heq]
        exact List.mem_cons_self _ _
      rw [ih vs _ hbv]
      exact find?_updateFirst_ne v.id b (fun s => { s with student := some item.1 })
        (fun _ => rfl) hvb seats

lemma placeDisplaced_pairing :
    ∀ (ds : List (Student × Seat)) (vs : List Seat) (seats : List Seat),
      (vs.map (fun v => v.id)).Nodup →
      (∀ v ∈ vs, v.id ∈ seats.map (fun s => s.id)) →
      ∀ (i : Nat) (item : Student × Seat) (v : Seat),
        ds.get? i = some item → vs.get? i = some v →
        ∃ s, (placeDisplaced ds vs seats).1.find? (fun s₀ => s₀.id == v.id) = some s ∧
          s.student = some item.1 := by
  intro ds
  induction ds with
  | nil =>
    intro vs seats _ _ i item v hd _
    cases hd
  | cons item₀ rest ih =>
    intro vs seats hnd hmem i item v hd hv
    cases vs with
    | nil => cases hv
    | cons v₀ vs =>
      show ∃ s, (placeDisplaced rest vs (updateFirst (fun s => s.id == v₀.id)
            (fun s => { s with student := some item₀.1 }) seats)).1.find?
            (fun s₀ => s₀.id == v.id) = some s ∧ s.student = some item.1
      cases i with
      | zero =>
        have hitem : item = item₀ := by injection hd with h; exact h.symm
        have hveq : v = v₀ := by injection hv with h; exact h.symm
        subst hitem
        subst hveq
        have hnotin : v.id ∉ vs.map (fun v => v.id) := by
          have := hnd
          simp only [List.map_cons, List.nodup_cons] at this
          exact this.1
        rw [placeDisplaced_find?_not_in v.id rest vs _ hnotin]
        rw [find?_updateFirst_same v.id (fun s => { s with student := some item.1 })
          (fun _ => rfl) seats]
        obtain ⟨s₀, hfind, hid⟩ := find?_mem_id v.id seats
          (hmem v (List.mem_cons_self _ _))
        rw [hfind]
        exact ⟨_, rfl, rfl⟩
      | succ i =>
        have hnd' : (vs.map (fun v => v.id)).Nodup := by
          simp only [List.map_cons, List.nodup_cons] at hnd
          exact hnd.2
        have hmem' : ∀ w ∈ vs, w.id ∈ (updateFirst (fun s => s.id == v₀.id)
            (fun s => { s with student := some item₀.1 }) seats).map (fun s => s.id) := by
          intro w hw
          rw [updateFirst_map_id (fun s => s.id == v₀.id)
            (fun s => { s with student := some item₀.1 }) (fun _ => rfl)]
          exact hmem w (List.mem_cons_of_mem _ hw)
        exact ih vs _ hnd' hmem' i item v hd hv

lemma insertByRC_perm {α : Type} (key : α → Nat × Nat) (x : α) :
    ∀ l : List α, List.Perm (insertByRC key x l) (x :: l) := by
  intro l
  induction l with
  | nil => exact List.Perm.refl _
  | cons y ys ih =>
    unfold insertByRC
    by_cases h : rcLt (key y) (key x) = true
    · rw [if_pos h]
      exact (ih.cons y).trans (List.Perm.swap x y ys)
    · rw [if_neg h]

lemma sortByRC_perm {α : Type} (key : α → Nat × Nat) :
    ∀ l : List α, List.Perm (sortByRC key l) l := by
  intro l
  induction l with
  | nil => exact List.Perm.refl _
  | cons x xs ih =>
    unfold sortByRC
    exact (insertByRC_perm key x (sortByRC key xs)).trans (ih.cons x)

lemma filterMap_findSeatById_map_id (d : SeatingData) :
    ∀ sids : List SeatId, (sids.filterMap d.findSeatById).map (fun s => s.id)
      = sids.filter (fun sid => (d.findSeatById sid).isSome) := by
  intro sids
  induction sids with
  | nil => rfl
  | cons sid rest ih =>
    cases hf : d.findSeatById sid with
    | none =>
      rw [List.filterMap_cons_none hf, List.filter_cons_of_neg (by simp [hf])]
      exact ih
    | some s =>
      have hid : s.id = sid := by
        have := List.find?_some hf
        simpa using this
      rw [List.filterMap_cons_some hf, List.filter_cons_of_pos (by simp [hf])]
      rw [List.map_cons, ih, hid]

lemma availableSourceSeats_ids_nodup (d : SeatingData) (sids targets : List SeatId)
    (hnd : sids.Nodup) :
    ((availableSourceSeatsOf d sids targets).map (fun s => s.id)).Nodup := by
  unfold availableSourceSeatsOf
  have hperm : List.Perm (sortByRC (fun s => (s.row, s.col))
      (((sids.filter (fun sid => !targets.contains sid)).filterMap
        d.findSeatById).filter (fun s => !s.isDeleted)))
      (((sids.filter (fun sid => !targets.contains sid)).filterMap
        d.findSeatById).filter (fun s => !s.isDeleted)) := sortByRC_perm _ _
  refine ((hperm.map (fun s => s.id)).symm.nodup) ?_
  have hsub : ((((sids.filter (fun sid => !targets.contains sid)).filterMap
      d.findSeatById).filter (fun s => !s.isDeleted)).map (fun s => s.id)).Sublist
      (((sids.filter (fun sid => !targets.contains sid)).filterMap
        d.findSeatById).map (fun s => s.id)) :=
    List.Sublist.map _ (List.filter_sublist _)
  refine hsub.nodup ?_
  rw [filterMap_findSeatById_map_id]
  exact (hnd.filter _).filter _

lemma mem_availableSourceSeats (d : SeatingData) (sids targets : List SeatId) (v : Seat)
    (hv : v ∈ availableSourceSeatsOf d sids targets) : v ∈ d.seats := by
  unfold availableSourceSeatsOf at hv
  have hv₁ := (sortByRC_perm (fun s : Seat => (s.row, s.col)) _).mem_iff.mp hv
  have hv₂ := (List.mem_filter.mp hv₁).1
  obtain ⟨sid, _, hfind⟩ := List.mem_filterMap.mp hv₂
  exact List.mem_of_find?_eq_some hfind

lemma cacheFor_from_acc (uid : Uuid) :
    ∀ (seats : List Seat) (acc : Option SeatId),
      seats.foldl (fun acc s =>
        match s.student with
        | some st => if st.uuid == uid then some s.id else acc
        | none => acc) acc = none ↔
      (acc = none ∧ ∀ s ∈ seats, ∀ st, s.student = some st → st.uuid ≠ uid) := by
  intro seats
  induction seats with
  | nil =>
    intro acc
    simp
  | cons s rest ih =>
    intro acc
    rw [List.foldl_cons, ih]
    constructor
    · rintro ⟨hstep, hrest⟩
      cases hst : s.student with
      | none =>
        rw [hst] at hstep
        dsimp only at hstep
        refine ⟨hstep, ?_⟩
        intro s₀ hs₀ st hstud
        rcases List.mem_cons.mp hs₀ with heq | hmem
        · subst heq
          rw [hst] at hstud
          cases hstud
        · exact hrest s₀ hmem st hstud
      | some st =>
        rw [hst] at hstep
        dsimp only at hstep
        by_cases huid : (st.uuid == uid) = true
        · rw [if_pos huid] at hstep
          cases hstep
        · rw [if_neg huid] at hstep
          refine ⟨hstep, ?_⟩
          intro s₀ hs₀ st₀ hstud
          rcases List.mem_cons.mp hs₀ with heq | hmem
          · subst heq
            rw [hst] at hstud
            injection hstud with hstud
            subst hstud
            simpa using huid
          · exact hrest s₀ hmem st₀ hstud
    · rintro ⟨hacc, hall⟩
      cases hst : s.student with
      | none =>
        dsimp only
        exact ⟨hacc, fun s₀ hmem st hstud => hall s₀ (List.mem_cons_of_mem _ hmem) st hstud⟩
      | some st =>
        dsimp only
        have hne : st.uuid ≠ uid := hall s (List.mem_cons_self _ _) st hst
        rw [if_neg (by simpa using hne)]
        exact ⟨hacc, fun s₀ hmem st₀ hstud => hall s₀ (List.mem_cons_of_mem _ hmem) st₀ hstud⟩

lemma cacheFor_eq_none_iff (seats : List Seat) (uid : Uuid) :
    cacheFor seats uid = none ↔
      ∀ s ∈ seats, ∀ st, s.student = some st → st.uuid ≠ uid := by
  unfold cacheFor
  rw [cacheFor_from_acc]
  simp

lemma clearCaches_map_uuid (us : List Uuid) (l : List Student) :
    (clearCaches us l).map (fun u => u.uuid) = l.map (fun u => u.uuid) := by
  unfold clearCaches
  rw [List.map_map]
  refine List.map_congr_left ?_
  intro u _
  show (if us.contains u.uuid = true then ({ u with seatId := none } : Student) else u).uuid
      = u.uuid
  split <;> rfl

lemma addToHistory_students (d : SeatingData) (a : String) (s : List Seat) (ts : Nat) :
    (d.addToHistory a s ts).students = d.students := by
  simp only [SeatingData.addToHistory]
  split <;> rfl

lemma findSeatById_addToHistory (d : SeatingData) (a : String) (s : List Seat) (ts : Nat)
    (x : SeatId) : (d.addToHistory a s ts).findSeatById x = d.findSeatById x := by
  unfold SeatingData.findSeatById
  rw [addToHistory_seats]

lemma sync_students_map_uuid (x : SeatingData) :
    (syncStudentSeatIds x).students.map (fun u => u.uuid)
      = x.students.map (fun u => u.uuid) := by
  unfold syncStudentSeatIds
  rw [List.map_map]
  exact List.map_congr_left (fun u _ => rfl)

/-- C3 as amended: for every accepted block move over a duplicate-free
selection, with D the displaced students sorted by the row-major
position of the seat they were displaced from and V the net-vacated
seats as the code computes them (selected sources that are no targets,
that exist and are not deleted, row-major), the i-th displaced student
is written onto the i-th net-vacated seat for all i below both lengths;
the roster keeps exactly the same uuids (no displaced student is ever
dropped), and after the final resync a student's seat cache is null
exactly when no seat holds the student - the overflow branch nulls the
cache, but the resync recomputes it, so an excess displaced student who
still occupies a seat keeps that seat in its cache. -/
theorem executeMultiDrop_displacement_pairing (d : SeatingData) (targetSeatId : SeatId)
    (sourceSeatIds : List SeatId) (ts : Nat) (res : DropResult)
    (hnd : sourceSeatIds.Nodup)
    (hacc : checkMultiDropTarget d targetSeatId sourceSeatIds = some res) :
    (∀ i item v,
      (sortByRC (fun it => (it.2.row, it.2.col))
        (collectMoves sourceSeatIds res.positions d.seats).displaced).get? i
          = some item →
      (availableSourceSeatsOf d sourceSeatIds
        (res.positions.map (fun p => p.targetSeatId))).get? i = some v →
      ∃ s, (executeMultiDropWithAllSeats d targetSeatId sourceSeatIds ts).seats.find?
          (fun s₀ => s₀.id == v.id) = some s ∧ s.student = some item.1) ∧
    ((executeMultiDropWithAllSeats d targetSeatId sourceSeatIds ts).students.map
        (fun u => u.uuid) = d.students.map (fun u => u.uuid)) ∧
    (∀ u ∈ (executeMultiDropWithAllSeats d targetSeatId sourceSeatIds ts).students,
      (u.seatId = none ↔
        ∀ s ∈ (executeMultiDropWithAllSeats d targetSeatId sourceSeatIds ts).seats,
          ∀ st, s.student = some st → st.uuid ≠ u.uuid)) := by
  have hfs : (d.addToHistory "seatArrangement" d.seats ts).findSeatById
      = d.findSeatById := funext (findSeatById_addToHistory d _ _ _)
  have havail : availableSourceSeatsOf (d.addToHistory "seatArrangement" d.seats ts)
      sourceSeatIds (res.positions.map (fun p => p.targetSeatId))
      = availableSourceSeatsOf d sourceSeatIds
        (res.positions.map (fun p => p.targetSeatId)) := by
    unfold availableSourceSeatsOf
    rw [hfs]
  have hcm : collectMoves sourceSeatIds res.positions
      (d.addToHistory "seatArrangement" d.seats ts).seats
      = collectMoves sourceSeatIds res.positions d.seats := by
    rw [addToHistory_seats]
  have hexec : executeMultiDropWithAllSeats d targetSeatId sourceSeatIds ts
      = syncStudentSeatIds
        { d.addToHistory "seatArrangement" d.seats ts with
          seats := (placeDisplaced
            (sortByRC (fun it => (it.2.row, it.2.col))
              (collectMoves sourceSeatIds res.positions d.seats).displaced)
            (availableSourceSeatsOf d sourceSeatIds
              (res.positions.map (fun p => p.targetSeatId)))
            (placeMoves (collectMoves sourceSeatIds res.positions d.seats).moves
              (collectMoves sourceSeatIds res.positions d.seats).seats)).1,
          students := clearCaches (placeDisplaced
            (sortByRC (fun it => (it.2.row, it.2.col))
              (collectMoves sourceSeatIds res.positions d.seats).displaced)
            (availableSourceSeatsOf d sourceSeatIds
              (res.positions.map (fun p => p.targetSeatId)))
            (placeMoves (collectMoves sourceSeatIds res.positions d.seats).moves
              (collectMoves sourceSeatIds res.positions d.seats).seats)).2
            (d.addToHistory "seatArrangement" d.seats ts).students } := by
    unfold executeMultiDropWithAllSeats
    rw [hacc]
    dsimp only
    rw [havail, hcm]
  have hnodup : ((availableSourceSeatsOf d sourceSeatIds
      (res.positions.map (fun p => p.targetSeatId))).map (fun s => s.id)).Nodup :=
    availableSourceSeats_ids_nodup d _ _ hnd
  have hmemb : ∀ v ∈ availableSourceSeatsOf d sourceSeatIds
      (res.positions.map (fun p => p.targetSeatId)),
      v.id ∈ (placeMoves (collectMoves sourceSeatIds res.positions d.seats).moves
        (collectMoves sourceSeatIds res.positions d.seats).seats).map (fun s => s.id) := by
    intro w hw
    rw [placeMoves_map_id, collectMoves_seats_map_id]
    exact List.mem_map_of_mem _ (mem_availableSourceSeats d _ _ w hw)
  refine ⟨?_, ?_, ?_⟩
  · intro i item v hd hv
    rw [hexec]
    exact placeDisplaced_pairing _ _ _ hnodup hmemb i item v hd hv
  · rw [hexec, sync_students_map_uuid]
    show (clearCaches _ (d.addToHistory "seatArrangement" d.seats ts).students).map
        (fun u => u.uuid) = _
    rw [clearCaches_map_uuid, addToHistory_students]
  · intro u hu
    rw [hexec] at hu ⊢
    obtain ⟨u₀, hu₀mem, hu₀eq⟩ := List.mem_map.mp hu
    rw [← hu₀eq]
    exact cacheFor_eq_none_iff _ u₀.uuid

/-- Witness for C3 as amended: moving the block {(0,0)} (A) onto (1,1)
on dAB displaces B, and B is backfilled into the single net-vacated
seat (0,0). -/
theorem executeMultiDrop_displacement_pairing_witness :
    ∃ s, (executeMultiDropWithAllSeats dAB (1, 1) [(0, 0)] 40).seats.find?
        (fun s₀ => s₀.id == ((0, 0) : SeatId)) = some s ∧ s.student = some demoB := by
  have h := executeMultiDrop_displacement_pairing dAB (1, 1) [(0, 0)] 40
    ⟨[⟨(0, 0), (1, 1), some demoA⟩], [demoB]⟩ (by decide) (by decide)
  exact h.1 0 (demoB, ⟨(1, 1), 1, 1, some demoB, false⟩)
    ⟨(0, 0), 0, 0, some demoA, false⟩ (by decide) (by decide)
